import Mathlib

/-!
Verification of the MoneyBalance persistence + analytics core.

Shallow embedding of:
  * `src/services/database/storage.ts` (`DatabaseService`)
  * the analytics part of `src/app/(tabs)/reports.tsx` (`calculateAnalytics`)
  * the budget-alert logic of `src/services/notifications/notificationService.ts`

Modelling conventions:
  * JS numbers are modelled as exact rationals (`ℚ`).
  * A JS `Date` is modelled as a calendar tuple (year, 0-based month, day,
    milliseconds within the day) ordered lexicographically; this matches the
    epoch-timestamp order of JS dates for in-range field values.  The only
    `Date` constructor the modelled code uses is `new Date(y, m, d)` with
    `d ∈ {0, 1}` (month out of range is normalised as in JS, day 0 rolls back
    to the last day of the previous month), embedded as `jsDate`.
  * `AsyncStorage` is modelled per key as a cell that is either failing
    (`getItem` rejects), absent (`null`), corrupt (`JSON.parse` throws) or
    holds a decoded value; writes fail exactly when the store's `writeFails`
    flag is set, in which case `setItem` / `multiRemove` reject.
  * Fallible operations return `Except Unit`; a thrown-and-rethrown JS error
    is `.error ()`.
-/

/-- Years divisible by 4 but not by 100 unless by 400, as in the Gregorian
calendar used by JS `Date`. -/
def isLeap (y : Int) : Bool := y % 4 = 0 && (y % 100 ≠ 0 || y % 400 = 0)

/-- Number of days of 0-based month `m` of year `y` (JS `Date` month
convention). -/
def daysInMonth (y m : Int) : Int :=
  if m = 1 then (if isLeap y then 29 else 28)
  else if m = 0 || m = 2 || m = 4 || m = 6 || m = 7 || m = 9 || m = 11 then 31
  else 30

/-- A JS `Date` value: calendar fields plus the time of day in milliseconds.
Ordered lexicographically (`dle`), matching epoch order for in-range fields. -/
structure DateTime where
  year : Int
  month : Int
  day : Int
  msOfDay : Int
deriving DecidableEq

/-- `a <= b` on JS dates (epoch-timestamp comparison). -/
def dle (a b : DateTime) : Bool :=
  decide (a.year < b.year ∨ (a.year = b.year ∧
    (a.month < b.month ∨ (a.month = b.month ∧
      (a.day < b.day ∨ (a.day = b.day ∧ a.msOfDay ≤ b.msOfDay))))))

/-- JS month-overflow normalisation: `new Date(y, m, _)` interprets an
out-of-range month by carrying into the year (floor division, so negative
months roll into earlier years as in JS). -/
def normalizeYM (y m : Int) : Int × Int := (y + m / 12, m % 12)

/-- `new Date(y, m, d)` for the arguments the modelled code uses
(`d = 1` for a first-of-month, `d = 0` for the last day of the previous
month); the time of day is midnight. -/
def jsDate (y m d : Int) : DateTime :=
  let ym := normalizeYM y m
  if d ≥ 1 then ⟨ym.1, ym.2, d, 0⟩
  else
    let y2 := if ym.2 = 0 then ym.1 - 1 else ym.1
    let m2 := if ym.2 = 0 then 11 else ym.2 - 1
    ⟨y2, m2, daysInMonth y2 m2, 0⟩

/-- `Transaction.type` field: `'income' | 'expense'`. -/
inductive TxType where
  | income
  | expense
deriving DecidableEq

/-- `Transaction` entity of `src/services/database/models.ts`. -/
structure Transaction where
  id : String
  type : TxType
  amount : ℚ
  category : String
  description : String
  notes : String
  photos : List String
  date : DateTime
  tags : List String
  createdAt : DateTime
  updatedAt : DateTime
deriving DecidableEq

/-- `Omit<Transaction, 'id' | 'createdAt' | 'updatedAt'>`: the draft accepted
by `saveTransaction`. -/
structure TransactionDraft where
  type : TxType
  amount : ℚ
  category : String
  description : String
  notes : String
  photos : List String
  date : DateTime
  tags : List String
deriving DecidableEq

/-- `Partial<Transaction>`: the update record accepted by
`updateTransaction`; `none` means the field is not named in the record. -/
structure TransactionUpdates where
  id : Option String := none
  type : Option TxType := none
  amount : Option ℚ := none
  category : Option String := none
  description : Option String := none
  notes : Option String := none
  photos : Option (List String) := none
  date : Option DateTime := none
  tags : Option (List String) := none
  createdAt : Option DateTime := none
  updatedAt : Option DateTime := none
deriving DecidableEq

/-- `Category` entity. -/
structure Category where
  id : String
  name : String
  type : TxType
  color : String
  icon : String
  budgetLimit : ℚ
deriving DecidableEq

/-- `Omit<Category, 'id'>` (shape of the default-category constants). -/
structure CategoryDraft where
  name : String
  type : TxType
  color : String
  icon : String
  budgetLimit : ℚ
deriving DecidableEq

/-- `Note` entity. -/
structure Note where
  id : String
  title : String
  content : String
  tags : List String
  attachments : List String
  transactionId : Option String
  createdAt : DateTime
  updatedAt : DateTime
deriving DecidableEq

/-- `Budget.period` field. -/
inductive BudgetPeriod where
  | weekly
  | monthly
deriving DecidableEq

/-- `Budget` entity. -/
structure Budget where
  id : String
  categoryId : String
  amount : ℚ
  period : BudgetPeriod
  startDate : DateTime
  budgetNotifications : Bool
deriving DecidableEq

/-- `AppSettings.theme` field. -/
inductive ThemePref where
  | light
  | dark
  | system
deriving DecidableEq

/-- `AppSettings` singleton record. -/
structure AppSettings where
  currency : String
  dateFormat : String
  theme : ThemePref
  notificationsEnabled : Bool
  budgetAlerts : Bool
  dailySummary : Bool
deriving DecidableEq

/-- `DEFAULT_INCOME_CATEGORIES` of `models.ts`. -/
def DEFAULT_INCOME_CATEGORIES : List CategoryDraft :=
  [⟨"Salary", .income, "#16a34a", "briefcase", 0⟩,
   ⟨"Freelance", .income, "#059669", "laptop", 0⟩,
   ⟨"Investment", .income, "#0d9488", "trending-up", 0⟩,
   ⟨"Gift", .income, "#0891b2", "gift", 0⟩,
   ⟨"Other", .income, "#0284c7", "plus-circle", 0⟩]

/-- `DEFAULT_EXPENSE_CATEGORIES` of `models.ts`. -/
def DEFAULT_EXPENSE_CATEGORIES : List CategoryDraft :=
  [⟨"Food & Dining", .expense, "#dc2626", "utensils", 500⟩,
   ⟨"Transportation", .expense, "#ea580c", "car", 200⟩,
   ⟨"Shopping", .expense, "#d97706", "shopping-bag", 300⟩,
   ⟨"Entertainment", .expense, "#ca8a04", "film", 150⟩,
   ⟨"Bills & Utilities", .expense, "#65a30d", "file-text", 400⟩,
   ⟨"Healthcare", .expense, "#16a34a", "heart", 200⟩,
   ⟨"Education", .expense, "#0891b2", "book", 100⟩,
   ⟨"Travel", .expense, "#0284c7", "map-pin", 300⟩,
   ⟨"Other", .expense, "#7c3aed", "more-horizontal", 100⟩]

/-- State of one `AsyncStorage` key holding a JSON-encoded value of type `α`:
the read may reject (`fail`), the key may be unset (`absent`, `getItem`
returns `null`), the stored text may not parse (`corrupt`), or it decodes to
a value (`ok`). -/
inductive Cell (α : Type) where
  | fail
  | absent
  | corrupt
  | ok (v : α)
deriving DecidableEq

/-- State of the `@moneyNote_initialized` marker key, which stores a raw
string (no JSON decoding, so no corrupt state). -/
inductive MarkerCell where
  | fail
  | absent
  | ok (v : String)
deriving DecidableEq

/-- The `AsyncStorage` state visible to `DatabaseService`: one cell per
storage key, plus a flag making every `setItem` / `multiRemove` reject. -/
structure Store where
  txCell : Cell (List Transaction)
  catCell : Cell (List Category)
  noteCell : Cell (List Note)
  budgetCell : Cell (List Budget)
  settingsCell : Cell AppSettings
  markerCell : MarkerCell
  writeFails : Bool
deriving DecidableEq

/-- `DatabaseService.getTransactions`: returns the decoded list, or `[]` when
the key is absent, the read rejects, or `JSON.parse` throws (both failure
paths end in the `catch` returning `[]`). -/
def getTransactions (s : Store) : List Transaction :=
  match s.txCell with
  | .ok v => v
  | _ => []

/-- `DatabaseService.getCategories`. -/
def getCategories (s : Store) : List Category :=
  match s.catCell with
  | .ok v => v
  | _ => []

/-- `DatabaseService.getNotes`. -/
def getNotes (s : Store) : List Note :=
  match s.noteCell with
  | .ok v => v
  | _ => []

/-- `DatabaseService.getBudgets`. -/
def getBudgets (s : Store) : List Budget :=
  match s.budgetCell with
  | .ok v => v
  | _ => []

/-- `DatabaseService.getSettings`: decoded settings, or `null` when absent /
failing / corrupt. -/
def getSettings (s : Store) : Option AppSettings :=
  match s.settingsCell with
  | .ok v => some v
  | _ => none

/-- `DatabaseService.saveTransaction`: appends a new transaction built from
the draft with a freshly generated id (`generateId`, passed in as `freshId`)
and `createdAt = updatedAt = new Date()` (passed in as `now`), then persists
the whole list.  A failing `setItem` is rethrown. -/
def saveTransaction (s : Store) (draft : TransactionDraft) (freshId : String)
    (now : DateTime) : Except Unit (Store × Transaction) :=
  let transactions := getTransactions s
  let newTransaction : Transaction :=
    ⟨freshId, draft.type, draft.amount, draft.category, draft.description,
     draft.notes, draft.photos, draft.date, draft.tags, now, now⟩
  if s.writeFails then .error ()
  else .ok ({ s with txCell := .ok (transactions ++ [newTransaction]) },
            newTransaction)

/-- The spread `{ ...t, ...updates, updatedAt: new Date() }`: each field named
in `updates` overrides `t` (including `id` and `createdAt` when named), and
the trailing literal forces `updatedAt := now` regardless of `updates`. -/
def applyUpdates (t : Transaction) (u : TransactionUpdates) (now : DateTime) :
    Transaction :=
  { id := u.id.getD t.id
    type := u.type.getD t.type
    amount := u.amount.getD t.amount
    category := u.category.getD t.category
    description := u.description.getD t.description
    notes := u.notes.getD t.notes
    photos := u.photos.getD t.photos
    date := u.date.getD t.date
    tags := u.tags.getD t.tags
    createdAt := u.createdAt.getD t.createdAt
    updatedAt := now }

/-- `DatabaseService.updateTransaction`: `findIndex` by id (`List.findIdx`
returns the length when no element matches, playing the role of `-1`, so the
`index !== -1` test becomes the in-bounds lookup `transactions[index]?`);
when found, the element is replaced by the merge and the list persisted
(a failing `setItem` is rethrown); when not found, nothing happens. -/
def updateTransaction (s : Store) (id : String) (u : TransactionUpdates)
    (now : DateTime) : Except Unit Store :=
  let transactions := getTransactions s
  let index := transactions.findIdx (fun t => decide (t.id = id))
  match transactions[index]? with
  | some t =>
      if s.writeFails then .error ()
      else .ok { s with txCell := .ok (transactions.set index (applyUpdates t u now)) }
  | none => .ok s

/-- `DatabaseService.deleteTransaction`: persists the list filtered by
`t.id !== id` (always writes, even when nothing matched). -/
def deleteTransaction (s : Store) (id : String) : Except Unit Store :=
  let transactions := getTransactions s
  let filtered := transactions.filter (fun t => decide (t.id ≠ id))
  if s.writeFails then .error ()
  else .ok { s with txCell := .ok filtered }

/-- The default `AppSettings` seeded by `DatabaseService.initialize`. -/
def defaultSettings : AppSettings :=
  ⟨"USD", "MM/DD/YYYY", .system, true, true, true⟩

/-- The default categories seeded by `DatabaseService.initialize`: income
defaults then expense defaults, each given a freshly generated id
(`gen` is the id generator, applied in call order). -/
def defaultCategories (gen : Nat → String) : List Category :=
  ((DEFAULT_INCOME_CATEGORIES ++ DEFAULT_EXPENSE_CATEGORIES).enum).map
    (fun p => ⟨gen p.1, p.2.name, p.2.type, p.2.color, p.2.icon, p.2.budgetLimit⟩)

/-- The seeding block of `DatabaseService.initialize`: `saveCategories`,
`saveSettings`, then `setItem(INITIALIZED, 'true')`.  When writes fail the
first `setItem` throws, the surrounding `catch` only logs, and nothing is
persisted. -/
def seedDefaults (s : Store) (gen : Nat → String) : Store :=
  if s.writeFails then s
  else { s with catCell := .ok (defaultCategories gen),
                settingsCell := .ok defaultSettings,
                markerCell := .ok "true" }

/-- `DatabaseService.initialize`: reads the `INITIALIZED` marker; seeding runs
only when the marker is falsy (`null`, i.e. absent, or the empty string).  A
failing marker read throws into the `catch`, which only logs, so the store is
left unchanged.  The whole operation never throws. -/
def initDB (s : Store) (gen : Nat → String) : Store :=
  match s.markerCell with
  | .fail => s
  | .absent => seedDefaults s gen
  | .ok v => if v = "" then seedDefaults s gen else s

/-- `DatabaseService.clearAll`: `multiRemove` of all six keys; a failing
remove is rethrown. -/
def clearAll (s : Store) : Except Unit Store :=
  if s.writeFails then .error ()
  else .ok { txCell := .absent, catCell := .absent, noteCell := .absent,
             budgetCell := .absent, settingsCell := .absent,
             markerCell := .absent, writeFails := s.writeFails }

/-- `reduce((total, t) => total + t.amount, 0)`. -/
def sumAmounts (l : List Transaction) : ℚ :=
  l.foldl (fun total t => total + t.amount) 0

/-- The reduce inside `DatabaseService.getBalance`: income adds, anything
else subtracts. -/
def computeBalance (transactions : List Transaction) : ℚ :=
  transactions.foldl
    (fun balance t =>
      if t.type = .income then balance + t.amount else balance - t.amount) 0

/-- `DatabaseService.getBalance`: balance of the stored transaction list. -/
def getBalance (s : Store) : ℚ :=
  computeBalance (getTransactions s)

/-- One point of the monthly-trend series (`MonthlyData` of `reports.tsx`). -/
structure MonthlyData where
  month : String
  income : ℚ
  expenses : ℚ
deriving DecidableEq

/-- One group of the category breakdown (`CategoryData` of `reports.tsx`). -/
structure CategoryData where
  name : String
  amount : ℚ
  color : String
  percentage : ℚ
deriving DecidableEq

/-- `date.toLocaleDateString('en-US', { month: 'short' })` for a normalised
0-based month. -/
def monthShortName (m : Int) : String :=
  if m = 0 then "Jan" else if m = 1 then "Feb" else if m = 2 then "Mar"
  else if m = 3 then "Apr" else if m = 4 then "May" else if m = 5 then "Jun"
  else if m = 6 then "Jul" else if m = 7 then "Aug" else if m = 8 then "Sep"
  else if m = 9 then "Oct" else if m = 10 then "Nov" else if m = 11 then "Dec"
  else ""

/-- The period filter of `calculateAnalytics`:
`transactionDate >= startDate && transactionDate <= now`. -/
def inWindow (startDate now : DateTime) (t : Transaction) : Bool :=
  dle startDate t.date && dle t.date now

/-- `periodTransactions` of `calculateAnalytics`; `startDate` is the window
start derived from the period selector (week / month / year). -/
def periodTransactions (transactions : List Transaction)
    (startDate now : DateTime) : List Transaction :=
  transactions.filter (inWindow startDate now)

/-- Expense transactions of the active period window. -/
def periodExpenses (transactions : List Transaction)
    (startDate now : DateTime) : List Transaction :=
  (periodTransactions transactions startDate now).filter
    (fun t => decide (t.type = TxType.expense))

/-- `expenses` of `calculateAnalytics`: the period expense total. -/
def periodExpenseTotal (transactions : List Transaction)
    (startDate now : DateTime) : ℚ :=
  sumAmounts (periodExpenses transactions startDate now)

/-- `income` of `calculateAnalytics`: the period income total. -/
def periodIncomeTotal (transactions : List Transaction)
    (startDate now : DateTime) : ℚ :=
  sumAmounts ((periodTransactions transactions startDate now).filter
    (fun t => decide (t.type = TxType.income)))

/-- One step of building the `categoryBreakdown` JS `Map`: an existing key
is updated in place, a new key is appended (JS `Map` preserves insertion
order). -/
def addToGroups (groups : List (String × ℚ)) (cat : String) (amt : ℚ) :
    List (String × ℚ) :=
  match groups with
  | [] => [(cat, amt)]
  | (k, v) :: rest =>
      if k = cat then (k, v + amt) :: rest
      else (k, v) :: addToGroups rest cat amt

/-- The `categoryBreakdown` map of `calculateAnalytics`: period expense
transactions folded into (category, summed amount) groups in
first-encounter order. -/
def expenseGroups (transactions : List Transaction)
    (startDate now : DateTime) : List (String × ℚ) :=
  (periodExpenses transactions startDate now).foldl
    (fun groups t => addToGroups groups t.category t.amount) []

/-- `allCategories.find(c => c.name === categoryName)?.color || '#666'`:
note that JS `||` also falls back when the matched category's color is the
empty string. -/
def colorFor (allCategories : List Category) (categoryName : String) : String :=
  match allCategories.find? (fun c => decide (c.name = categoryName)) with
  | some c => if c.color = "" then "#666" else c.color
  | none => "#666"

/-- Insertion step of a stable descending sort by `amount`; exactly the
effect of the stable JS `sort((a, b) => b.amount - a.amount)`. -/
def insertByAmount (x : CategoryData) : List CategoryData → List CategoryData
  | [] => [x]
  | y :: ys => if x.amount ≥ y.amount then x :: y :: ys else y :: insertByAmount x ys

/-- Stable sort by summed amount, descending (the JS
`sort((a, b) => b.amount - a.amount)`, which is stable). -/
def sortByAmountDesc : List CategoryData → List CategoryData
  | [] => []
  | x :: xs => insertByAmount x (sortByAmountDesc xs)

/-- `categoryDataArray` of `calculateAnalytics`: groups mapped to
`CategoryData` (color join by name, percentage of the period expense total,
0 when that total is 0) and sorted by amount descending. -/
def categoryBreakdown (transactions : List Transaction)
    (allCategories : List Category) (startDate now : DateTime) :
    List CategoryData :=
  let expenses := periodExpenseTotal transactions startDate now
  sortByAmountDesc ((expenseGroups transactions startDate now).map
    (fun p => ⟨p.1, p.2, colorFor allCategories p.1,
               if 0 < expenses then p.2 / expenses * 100 else 0⟩))

/-- `topCategories`: the first five breakdown groups. -/
def topCategories (transactions : List Transaction)
    (allCategories : List Category) (startDate now : DateTime) :
    List CategoryData :=
  (categoryBreakdown transactions allCategories startDate now).take 5

/-- The body of the monthly-trend loop of `calculateAnalytics` for offset
`i` months before the current one: `date = new Date(y, m - i, 1)`, window
`[new Date(y', m', 1), new Date(y', m' + 1, 0)]`, sums over the full
(period-selector unfiltered) transaction list. -/
def trendPoint (allTransactions : List Transaction) (now : DateTime)
    (i : Int) : MonthlyData :=
  let date := jsDate now.year (now.month - i) 1
  let monthStart := jsDate date.year date.month 1
  let monthEnd := jsDate date.year (date.month + 1) 0
  let monthTransactions := allTransactions.filter (inWindow monthStart monthEnd)
  { month := monthShortName date.month
    income := sumAmounts (monthTransactions.filter
      (fun t => decide (t.type = TxType.income)))
    expenses := sumAmounts (monthTransactions.filter
      (fun t => decide (t.type = TxType.expense))) }

/-- The monthly-trend loop of `calculateAnalytics`: one point per
`i = 5 … 0` (oldest month first). -/
def monthlyTrend (allTransactions : List Transaction) (now : DateTime) :
    List MonthlyData :=
  (List.range 6).map (fun (k : Nat) => trendPoint allTransactions now (5 - (k : Int)))

/-- Alert kinds produced by `scheduleBudgetAlert`: the "Budget Exceeded"
notification and the "Budget Warning" notification. -/
inductive AlertKind where
  | warning
  | exceeded
deriving DecidableEq

/-- The settings gate shared by the notification methods:
`settings?.notificationsEnabled && settings?.budgetAlerts` (false when
settings are absent). -/
def alertsEnabled : Option AppSettings → Bool
  | some st => st.notificationsEnabled && st.budgetAlerts
  | none => false

/-- The body of `scheduleBudgetAlert`: percentage of the limit used; the
exceeded notification at ≥ 100%, the warning at ≥ 80%, otherwise no
notification (empty title / body). -/
def budgetAlertKind (currentSpent budgetLimit : ℚ) : Option AlertKind :=
  let percentage := currentSpent / budgetLimit * 100
  if percentage ≥ 100 then some .exceeded
  else if percentage ≥ 80 then some .warning
  else none

/-- `scheduleBudgetAlert`: returns the notification it schedules (none when
notifications or budget alerts are disabled in settings). -/
def scheduleBudgetAlert (st : Option AppSettings)
    (currentSpent budgetLimit : ℚ) : Option AlertKind :=
  if alertsEnabled st then budgetAlertKind currentSpent budgetLimit else none

/-- The monthly spend of `checkBudgetAlerts` for one category: expense
transactions of the current calendar month (by `getMonth` / `getFullYear`)
whose category string equals the category's name. -/
def monthlySpent (transactions : List Transaction) (categoryName : String)
    (now : DateTime) : ℚ :=
  sumAmounts (transactions.filter (fun t =>
    decide (t.type = TxType.expense ∧ t.category = categoryName ∧
            t.date.month = now.month ∧ t.date.year = now.year)))

/-- The per-category body of the `checkBudgetAlerts` loop: only categories
with `budgetLimit > 0` are considered, `scheduleBudgetAlert` is called only
when the monthly spend reaches 80% of the limit. -/
def alertForCategory (st : Option AppSettings)
    (transactions : List Transaction) (c : Category) (now : DateTime) :
    Option AlertKind :=
  if 0 < c.budgetLimit then
    let spent := monthlySpent transactions c.name now
    if spent ≥ c.budgetLimit * (8 / 10 : ℚ) then
      scheduleBudgetAlert st spent c.budgetLimit
    else none
  else none

/-- `checkBudgetAlerts`: the notifications raised, one per alerting category,
in category order. -/
def checkBudgetAlerts (st : Option AppSettings)
    (transactions : List Transaction) (categories : List Category)
    (now : DateTime) : List (String × AlertKind) :=
  categories.filterMap (fun c =>
    (alertForCategory st transactions c now).map (fun k => (c.name, k)))

/-! ## Derived vocabulary used by the specification statements -/

/-- Sum of the amounts of the income transactions of a list. -/
def incomeSum (l : List Transaction) : ℚ :=
  ((l.filter (fun t => decide (t.type = TxType.income))).map (·.amount)).sum

/-- Sum of the amounts of the expense transactions of a list. -/
def expenseSum (l : List Transaction) : ℚ :=
  ((l.filter (fun t => decide (t.type = TxType.expense))).map (·.amount)).sum

/-! ## Helper lemmas -/

theorem sumAmounts_eq_sum_map (l : List Transaction) :
    sumAmounts l = (l.map (·.amount)).sum := by
  suffices h : ∀ b : ℚ, l.foldl (fun total t => total + t.amount) b
      = b + (l.map (·.amount)).sum by
    simpa [sumAmounts] using h 0
  induction l with
  | nil => simp
  | cons t rest ih => intro b; simp [List.foldl_cons, ih]; ring

theorem computeBalance_foldl (l : List Transaction) (b : ℚ) :
    l.foldl (fun bal t =>
        if t.type = TxType.income then bal + t.amount else bal - t.amount) b
      = b + incomeSum l - expenseSum l := by
  induction l generalizing b with
  | nil => simp [incomeSum, expenseSum]
  | cons t rest ih =>
      cases h : t.type <;>
        simp [List.foldl_cons, ih, incomeSum, expenseSum, List.filter_cons, h] <;>
        ring

theorem incomeSum_perm {T T' : List Transaction} (h : T.Perm T') :
    incomeSum T = incomeSum T' :=
  ((h.filter _).map _).sum_eq

theorem expenseSum_perm {T T' : List Transaction} (h : T.Perm T') :
    expenseSum T = expenseSum T' :=
  ((h.filter _).map _).sum_eq

theorem findIdx_eq_length_of_none {α : Type} (p : α → Bool) (l : List α)
    (h : ∀ t ∈ l, p t = false) : l.findIdx p = l.length := by
  induction l with
  | nil => rfl
  | cons a rest ih =>
      have ha : p a = false := h a (List.mem_cons_self a rest)
      simp [List.findIdx_cons, ha, ih (fun t ht => h t (List.mem_cons_of_mem a ht))]

/-! ## C2: balance -/

/-- C2: for every transaction set `T`, `getBalance` computes the sum of all
income amounts minus the sum of all expense amounts over the whole stored
history (no date filtering), and the result is invariant under reordering
of `T`. -/
theorem getBalance_income_minus_expense :
    (∀ s : Store, getBalance s
        = incomeSum (getTransactions s) - expenseSum (getTransactions s)) ∧
    (∀ T : List Transaction, computeBalance T = incomeSum T - expenseSum T) ∧
    (∀ T T' : List Transaction, T.Perm T' → computeBalance T = computeBalance T') := by
  have hbal : ∀ T : List Transaction, computeBalance T = incomeSum T - expenseSum T := by
    intro T
    simpa using computeBalance_foldl T 0
  refine ⟨fun s => hbal _, hbal, fun T T' h => ?_⟩
  rw [hbal, hbal, incomeSum_perm h, expenseSum_perm h]

/-! ## Concrete sample data used by witnesses and counterexamples -/

def dJune15 : DateTime := ⟨2025, 5, 15, 0⟩

def txA : Transaction :=
  ⟨"a1", .income, 1000, "Salary", "", "", [], dJune15, [], dJune15, dJune15⟩

def txB : Transaction :=
  ⟨"b2", .expense, 50, "Food & Dining", "", "", [], dJune15, [], dJune15, dJune15⟩

def draftA : TransactionDraft :=
  ⟨.expense, 30, "Shopping", "", "", [], dJune15, []⟩

def storeA : Store :=
  ⟨.ok [txA, txB], .ok [], .ok [], .ok [], .ok defaultSettings, .ok "true", false⟩

def storeBad : Store :=
  ⟨.fail, .corrupt, .absent, .fail, .corrupt, .absent, true⟩

/-- Witness for C2 at a concrete two-element history and its swap. -/
theorem getBalance_income_minus_expense_witness :
    computeBalance [txA, txB] = incomeSum [txA, txB] - expenseSum [txA, txB] ∧
    computeBalance [txB, txA] = computeBalance [txA, txB] := by
  refine ⟨getBalance_income_minus_expense.2.1 [txA, txB], ?_⟩
  exact getBalance_income_minus_expense.2.2 [txB, txA] [txA, txB]
    (List.Perm.swap txA txB [])

/-! ## C3: update of an unknown id is a silent no-op -/

/-- C3: when no stored transaction has the requested id, `updateTransaction`
returns successfully (no error) and the store — hence any subsequent read of
the transaction list — is exactly unchanged. -/
theorem updateTransaction_unknown_id_noop (s : Store) (id : String)
    (u : TransactionUpdates) (now : DateTime)
    (h : ∀ t ∈ getTransactions s, t.id ≠ id) :
    updateTransaction s id u now = .ok s := by
  have hidx : (getTransactions s).findIdx (fun t => decide (t.id = id))
      = (getTransactions s).length :=
    findIdx_eq_length_of_none _ _ (fun t ht => decide_eq_false (h t ht))
  simp only [updateTransaction]
  rw [hidx, List.getElem?_len_le (le_refl _)]

/-- Witness for C3: updating id "zzz", absent from the two stored
transactions, succeeds and leaves the store untouched. -/
theorem updateTransaction_unknown_id_noop_witness :
    updateTransaction storeA "zzz" {} dJune15 = .ok storeA :=
  updateTransaction_unknown_id_noop storeA "zzz" {} dJune15 (by decide)

/-! ## C7: saveTransaction appends a fresh entity -/

/-- C7: a successful `saveTransaction` returns the created entity and makes
the stored list equal to the previous list with the new entity appended
(so it has exactly one more element and every previously stored entity is
unchanged); the new entity carries the draft's fields, the fresh id, and
`createdAt = updatedAt = now`. -/
theorem saveTransaction_appends (s : Store) (d : TransactionDraft)
    (freshId : String) (now : DateTime) (h : s.writeFails = false) :
    ∃ (s' : Store) (t : Transaction),
      saveTransaction s d freshId now = .ok (s', t) ∧
      getTransactions s' = getTransactions s ++ [t] ∧
      (getTransactions s').length = (getTransactions s).length + 1 ∧
      t.id = freshId ∧ t.createdAt = now ∧ t.updatedAt = now ∧
      t.type = d.type ∧ t.amount = d.amount ∧ t.category = d.category ∧
      t.description = d.description ∧ t.notes = d.notes ∧
      t.photos = d.photos ∧ t.date = d.date ∧ t.tags = d.tags := by
  refine ⟨{ s with txCell := .ok (getTransactions s ++
      [⟨freshId, d.type, d.amount, d.category, d.description, d.notes,
        d.photos, d.date, d.tags, now, now⟩]) },
    ⟨freshId, d.type, d.amount, d.category, d.description, d.notes,
     d.photos, d.date, d.tags, now, now⟩,
    ?_, ?_, ?_, rfl, rfl, rfl, rfl, rfl, rfl, rfl, rfl, rfl, rfl, rfl⟩
  · simp [saveTransaction, h]
  · simp [getTransactions]
  · simp [getTransactions]

/-- Witness for C7 at a concrete store and draft. -/
theorem saveTransaction_appends_witness :
    ∃ (s' : Store) (t : Transaction),
      saveTransaction storeA draftA "c3" dJune15 = .ok (s', t) ∧
      getTransactions s' = getTransactions storeA ++ [t] ∧
      (getTransactions s').length = (getTransactions storeA).length + 1 ∧
      t.id = "c3" ∧ t.createdAt = dJune15 ∧ t.updatedAt = dJune15 ∧
      t.type = draftA.type ∧ t.amount = draftA.amount ∧
      t.category = draftA.category ∧ t.description = draftA.description ∧
      t.notes = draftA.notes ∧ t.photos = draftA.photos ∧
      t.date = draftA.date ∧ t.tags = draftA.tags :=
  saveTransaction_appends storeA draftA "c3" dJune15 rfl

/-! ## C8: reads degrade to empty, writes propagate failure -/

/-- C8: on any failing, absent or corrupt backing state, every list-style
read returns the empty result (and `getSettings` returns absent) instead of
raising; whereas on a failing medium the write operations — create, delete,
and update when it reaches its write — propagate the failure as an error. -/
theorem reads_degrade_writes_propagate (s : Store) (d : TransactionDraft)
    (freshId : String) (now : DateTime) (id : String)
    (u : TransactionUpdates) :
    ((s.txCell = .fail ∨ s.txCell = .absent ∨ s.txCell = .corrupt) →
        getTransactions s = []) ∧
    ((s.catCell = .fail ∨ s.catCell = .absent ∨ s.catCell = .corrupt) →
        getCategories s = []) ∧
    ((s.noteCell = .fail ∨ s.noteCell = .absent ∨ s.noteCell = .corrupt) →
        getNotes s = []) ∧
    ((s.budgetCell = .fail ∨ s.budgetCell = .absent ∨ s.budgetCell = .corrupt) →
        getBudgets s = []) ∧
    ((s.settingsCell = .fail ∨ s.settingsCell = .absent ∨ s.settingsCell = .corrupt) →
        getSettings s = none) ∧
    (s.writeFails = true → saveTransaction s d freshId now = .error ()) ∧
    (s.writeFails = true → deleteTransaction s id = .error ()) ∧
    (s.writeFails = true → (∃ t ∈ getTransactions s, t.id = id) →
        updateTransaction s id u now = .error ()) := by
  refine ⟨?_, ?_, ?_, ?_, ?_, ?_, ?_, ?_⟩
  · rintro (h | h | h) <;> simp [getTransactions, h]
  · rintro (h | h | h) <;> simp [getCategories, h]
  · rintro (h | h | h) <;> simp [getNotes, h]
  · rintro (h | h | h) <;> simp [getBudgets, h]
  · rintro (h | h | h) <;> simp [getSettings, h]
  · intro hw; simp [saveTransaction, hw]
  · intro hw; simp [deleteTransaction, hw]
  · rintro hw ⟨t, ht, hid⟩
    have hlt : (getTransactions s).findIdx (fun t => decide (t.id = id))
        < (getTransactions s).length :=
      List.findIdx_lt_length_of_exists ⟨t, ht, by simp [hid]⟩
    simp only [updateTransaction]
    rw [List.getElem?_eq_getElem hlt]
    simp [hw]

/-- Witness for C8: a store with failing/corrupt cells reads empty, and a
failing medium makes a save error out. -/
theorem reads_degrade_writes_propagate_witness :
    getTransactions storeBad = [] ∧ getCategories storeBad = [] ∧
    getSettings storeBad = none ∧
    saveTransaction storeBad draftA "c4" dJune15 = .error () ∧
    deleteTransaction storeBad "a1" = .error () := by
  have h := reads_degrade_writes_propagate storeBad draftA "c4" dJune15 "a1" {}
  exact ⟨h.1 (Or.inl rfl), h.2.1 (Or.inr (Or.inr rfl)),
         h.2.2.2.2.1 (Or.inr (Or.inr rfl)), h.2.2.2.2.2.1 rfl,
         h.2.2.2.2.2.2.1 rfl⟩

/-! ## C9: bootstrap idempotence -/

/-- C9: whenever the persisted `initialized` marker holds the (truthy) value
the system writes, `initialize` leaves the whole store — in particular the
categories and settings, even an emptied category collection — unchanged;
seeding of the default categories and settings (and the writing of the
marker) happens exactly when the marker is absent. -/
theorem initDB_idempotent (s : Store) (gen : Nat → String) :
    (∀ v, s.markerCell = .ok v → v ≠ "" → initDB s gen = s) ∧
    (s.markerCell = .absent → s.writeFails = false →
      (initDB s gen).catCell = .ok (defaultCategories gen) ∧
      (initDB s gen).settingsCell = .ok defaultSettings ∧
      (initDB s gen).markerCell = .ok "true") := by
  constructor
  · intro v hv hne
    simp [initDB, hv, hne]
  · intro h1 h2
    simp [initDB, h1, seedDefaults, h2]

def storeSeededEmptyCats : Store :=
  ⟨.ok [], .ok [], .ok [], .ok [], .ok defaultSettings, .ok "true", false⟩

/-- Witness for C9: with the marker present and the category collection
emptied, `initialize` does not reseed. -/
theorem initDB_idempotent_witness :
    initDB storeSeededEmptyCats (fun _ => "id") = storeSeededEmptyCats :=
  (initDB_idempotent storeSeededEmptyCats (fun _ => "id")).1 "true" rfl
    (by decide)

/-! ## C10: clearAll resets everything and re-arms bootstrap -/

/-- C10: a successful `clearAll` empties all five entity collections, makes
`getSettings` absent and removes the `initialized` marker, after which
`initialize` seeds the default categories and settings and rewrites the
marker. -/
theorem clearAll_resets (s : Store) (gen : Nat → String)
    (h : s.writeFails = false) :
    ∃ s', clearAll s = .ok s' ∧
      getTransactions s' = [] ∧ getCategories s' = [] ∧ getNotes s' = [] ∧
      getBudgets s' = [] ∧ getSettings s' = none ∧
      s'.markerCell = .absent ∧
      (initDB s' gen).catCell = .ok (defaultCategories gen) ∧
      (initDB s' gen).settingsCell = .ok defaultSettings ∧
      (initDB s' gen).markerCell = .ok "true" := by
  refine ⟨{ txCell := .absent, catCell := .absent, noteCell := .absent,
            budgetCell := .absent, settingsCell := .absent,
            markerCell := .absent, writeFails := s.writeFails }, ?_,
          rfl, rfl, rfl, rfl, rfl, rfl, ?_, ?_, ?_⟩
  · simp [clearAll, h]
  · simp [initDB, seedDefaults, h]
  · simp [initDB, seedDefaults, h]
  · simp [initDB, seedDefaults, h]

/-- Witness for C10 at a concrete populated store. -/
theorem clearAll_resets_witness :
    ∃ s', clearAll storeA = .ok s' ∧
      getTransactions s' = [] ∧ getCategories s' = [] ∧ getNotes s' = [] ∧
      getBudgets s' = [] ∧ getSettings s' = none ∧
      s'.markerCell = .absent ∧
      (initDB s' (fun _ => "id")).catCell
        = .ok (defaultCategories (fun _ => "id")) ∧
      (initDB s' (fun _ => "id")).settingsCell = .ok defaultSettings ∧
      (initDB s' (fun _ => "id")).markerCell = .ok "true" :=
  clearAll_resets storeA (fun _ => "id") rfl

/-! ## C1: update of a present id (frame conditions) -/

theorem findIdx_append_cons {α : Type} (p : α → Bool) (pre post : List α)
    (t : α) (hpre : ∀ x ∈ pre, p x = false) (ht : p t = true) :
    (pre ++ t :: post).findIdx p = pre.length := by
  induction pre with
  | nil => simp [List.findIdx_cons, ht]
  | cons a rest ih =>
      have ha : p a = false := hpre a (List.mem_cons_self a rest)
      simp [List.findIdx_cons, ha,
            ih (fun x hx => hpre x (List.mem_cons_of_mem a hx))]

theorem getElem?_append_cons {α : Type} (pre post : List α) (t : α) :
    (pre ++ t :: post)[pre.length]? = some t := by
  induction pre with
  | nil => simp
  | cons a rest ih => simpa using ih

theorem set_append_cons {α : Type} (pre post : List α) (t x : α) :
    (pre ++ t :: post).set pre.length x = pre ++ x :: post := by
  induction pre with
  | nil => rfl
  | cons a rest ih => simp [List.set, ih]

/-- C1 (amended): for an update record that does not name `id` or
`createdAt`, `updateTransaction` on a present id succeeds (when the medium
write succeeds), replaces only the first matching entity — every entity
before and after it is unchanged — and the replacement keeps the pre-call
`id` and `createdAt`, sets `updatedAt := now`, and takes each remaining
field from the record when named there and from the old entity otherwise.
(The original claim, quantifying over every partial record, is refuted by
`updateTransaction_preserve_createdAt_counterexample`: a record naming
`createdAt` — or `id` — overwrites it, since the code merges the whole
record.) -/
theorem updateTransaction_found_frame (s : Store) (id : String)
    (u : TransactionUpdates) (now : DateTime)
    (pre post : List Transaction) (t : Transaction)
    (hw : s.writeFails = false)
    (hdecomp : getTransactions s = pre ++ t :: post)
    (hpre : ∀ x ∈ pre, x.id ≠ id) (ht : t.id = id)
    (hid : u.id = none) (hcreated : u.createdAt = none) :
    ∃ s', updateTransaction s id u now = .ok s' ∧
      getTransactions s' = pre ++ applyUpdates t u now :: post ∧
      (applyUpdates t u now).id = t.id ∧
      (applyUpdates t u now).createdAt = t.createdAt ∧
      (applyUpdates t u now).updatedAt = now ∧
      (applyUpdates t u now).type = u.type.getD t.type ∧
      (applyUpdates t u now).amount = u.amount.getD t.amount ∧
      (applyUpdates t u now).category = u.category.getD t.category ∧
      (applyUpdates t u now).description = u.description.getD t.description ∧
      (applyUpdates t u now).notes = u.notes.getD t.notes ∧
      (applyUpdates t u now).photos = u.photos.getD t.photos ∧
      (applyUpdates t u now).date = u.date.getD t.date ∧
      (applyUpdates t u now).tags = u.tags.getD t.tags := by
  have hfind : (getTransactions s).findIdx (fun x => decide (x.id = id))
      = pre.length := by
    rw [hdecomp]
    exact findIdx_append_cons _ pre post t
      (fun x hx => decide_eq_false (hpre x hx)) (by simp [ht])
  have hget : (getTransactions s)[pre.length]? = some t := by
    rw [hdecomp]; exact getElem?_append_cons pre post t
  refine ⟨{ s with txCell := .ok ((getTransactions s).set pre.length
            (applyUpdates t u now)) }, ?_, ?_,
          by simp [applyUpdates, hid],
          by simp [applyUpdates, hcreated],
          rfl, rfl, rfl, rfl, rfl, rfl, rfl, rfl, rfl⟩
  · simp only [updateTransaction]
    rw [hfind, hget]
    simp [hw]
  · show (getTransactions s).set pre.length (applyUpdates t u now)
        = pre ++ applyUpdates t u now :: post
    rw [hdecomp, set_append_cons]

def uTags : TransactionUpdates := { tags := some ["travel"] }

/-- Witness for C1 (amended): updating the tags of stored transaction `b2`
leaves `a1` untouched, keeps `b2`'s id and `createdAt`, and refreshes its
`updatedAt`. -/
theorem updateTransaction_found_frame_witness :
    ∃ s', updateTransaction storeA "b2" uTags dJune15 = .ok s' ∧
      getTransactions s' = [txA] ++ applyUpdates txB uTags dJune15 :: [] ∧
      (applyUpdates txB uTags dJune15).id = txB.id ∧
      (applyUpdates txB uTags dJune15).createdAt = txB.createdAt ∧
      (applyUpdates txB uTags dJune15).updatedAt = dJune15 ∧
      (applyUpdates txB uTags dJune15).type = uTags.type.getD txB.type ∧
      (applyUpdates txB uTags dJune15).amount = uTags.amount.getD txB.amount ∧
      (applyUpdates txB uTags dJune15).category
        = uTags.category.getD txB.category ∧
      (applyUpdates txB uTags dJune15).description
        = uTags.description.getD txB.description ∧
      (applyUpdates txB uTags dJune15).notes = uTags.notes.getD txB.notes ∧
      (applyUpdates txB uTags dJune15).photos = uTags.photos.getD txB.photos ∧
      (applyUpdates txB uTags dJune15).date = uTags.date.getD txB.date ∧
      (applyUpdates txB uTags dJune15).tags = uTags.tags.getD txB.tags :=
  updateTransaction_found_frame storeA "b2" uTags dJune15 [txA] [] txB rfl
    rfl (by decide) rfl rfl rfl

def uCreatedAt : TransactionUpdates := { createdAt := some ⟨2030, 0, 1, 0⟩ }

/-- `txA` after the update with a record that names `createdAt`: its
`createdAt` has been overwritten. -/
def txAOverwritten : Transaction :=
  { txA with createdAt := ⟨2030, 0, 1, 0⟩, updatedAt := dJune15 }

/-- The store produced by that update. -/
def storeAUpdatedCreatedAt : Store :=
  { storeA with txCell := Cell.ok [txAOverwritten, txB] }

/-- Counterexample to C1 as stated: the claim quantifies over every
partial-update record, but a record naming `createdAt` changes the stored
entity's `createdAt` (from June 15 2025 to Jan 1 2030 here), because the
merge spreads the whole record over the entity. -/
theorem updateTransaction_preserve_createdAt_counterexample :
    txA.id = "a1" ∧ txA.createdAt = ⟨2025, 5, 15, 0⟩ ∧
    updateTransaction storeA "a1" uCreatedAt dJune15
      = .ok storeAUpdatedCreatedAt ∧
    (⟨2030, 0, 1, 0⟩ : DateTime) ≠ (⟨2025, 5, 15, 0⟩ : DateTime) := by
  refine ⟨rfl, rfl, ?_, by decide⟩
  rfl

/-! ## C6: budget alert thresholds -/

theorem pct_ge_100_iff (spent L : ℚ) (hL : 0 < L) :
    (100 ≤ spent / L * 100) ↔ L ≤ spent := by
  rw [div_mul_eq_mul_div, le_div_iff₀ hL]
  constructor <;> intro h <;> linarith

theorem pct_ge_80_iff (spent L : ℚ) (hL : 0 < L) :
    (80 ≤ spent / L * 100) ↔ L * (8 / 10 : ℚ) ≤ spent := by
  rw [div_mul_eq_mul_div, le_div_iff₀ hL]
  constructor <;> intro h <;> linarith

/-- With notifications and budget alerts enabled and a positive limit, the
alert for a category is decided purely by how the current-month spend
compares to the limit and to 80% of it. -/
theorem alertForCategory_eq (st : AppSettings) (transactions : List Transaction)
    (c : Category) (now : DateTime)
    (hN : st.notificationsEnabled = true) (hB : st.budgetAlerts = true)
    (hL : 0 < c.budgetLimit) :
    alertForCategory (some st) transactions c now =
      (if c.budgetLimit ≤ monthlySpent transactions c.name now then
        some AlertKind.exceeded
      else if c.budgetLimit * (8 / 10 : ℚ) ≤ monthlySpent transactions c.name now then
        some AlertKind.warning
      else none) := by
  have e100 := pct_ge_100_iff (monthlySpent transactions c.name now) c.budgetLimit hL
  have e80 := pct_ge_80_iff (monthlySpent transactions c.name now) c.budgetLimit hL
  simp only [alertForCategory, scheduleBudgetAlert, alertsEnabled, hN, hB,
    budgetAlertKind, if_pos hL, Bool.and_self, if_true, ge_iff_le]
  simp only [e100, e80]
  split_ifs with h1 h2 h3 <;> first | rfl | linarith

/-- C6: with notifications and budget alerts enabled, the budget check
produces an alert only for categories with a strictly positive
`budgetLimit`; for such a category — writing `spent` for the sum of its
current-calendar-month expense transactions (`monthlySpent`) — it raises the
warning alert exactly when `80% · limit ≤ spent < limit`, the exceeded alert
exactly when `spent ≥ limit`, and no alert below the 80% threshold. -/
theorem checkBudgetAlerts_thresholds (st : AppSettings)
    (transactions : List Transaction) (c : Category) (now : DateTime)
    (hN : st.notificationsEnabled = true) (hB : st.budgetAlerts = true) :
    (alertForCategory (some st) transactions c now = some AlertKind.exceeded ↔
      0 < c.budgetLimit ∧
        c.budgetLimit ≤ monthlySpent transactions c.name now) ∧
    (alertForCategory (some st) transactions c now = some AlertKind.warning ↔
      0 < c.budgetLimit ∧
        c.budgetLimit * (8 / 10 : ℚ) ≤ monthlySpent transactions c.name now ∧
        monthlySpent transactions c.name now < c.budgetLimit) ∧
    (¬ 0 < c.budgetLimit → alertForCategory (some st) transactions c now = none) ∧
    (0 < c.budgetLimit →
      monthlySpent transactions c.name now < c.budgetLimit * (8 / 10 : ℚ) →
      alertForCategory (some st) transactions c now = none) := by
  by_cases hL : 0 < c.budgetLimit
  · rw [alertForCategory_eq st transactions c now hN hB hL]
    refine ⟨?_, ?_, fun h => absurd hL h, fun _ h8 => ?_⟩
    · split_ifs with h1 h2
      · simp [hL, h1]
      · simp [h1]
      · simp [h1]
    · split_ifs with h1 h2
      · simp [not_lt.mpr h1]
      · simp [hL, h2, not_le.mp h1]
      · simp [h2]
    · split_ifs with h1 h2
      · exfalso; linarith
      · exfalso; linarith
      · rfl
  · have hnone : alertForCategory (some st) transactions c now = none := by
      simp [alertForCategory, hL]
    rw [hnone]
    exact ⟨by simp [hL], by simp [hL], fun _ => rfl, fun _ _ => rfl⟩

def catFood : Category := ⟨"c1", "Food", .expense, "#dc2626", "utensils", 100⟩

def txFood85 : Transaction :=
  ⟨"f1", .expense, 85, "Food", "", "", [], dJune15, [], dJune15, dJune15⟩

/-- Witness for C6: an 85-spend against a 100-limit in the current month
raises exactly the warning alert. -/
theorem checkBudgetAlerts_thresholds_witness :
    alertForCategory (some defaultSettings) [txFood85] catFood dJune15
      = some AlertKind.warning := by
  have h := checkBudgetAlerts_thresholds defaultSettings [txFood85] catFood
    dJune15 rfl rfl
  have hm : monthlySpent [txFood85] catFood.name dJune15 = 85 := by
    norm_num [monthlySpent, sumAmounts, catFood, txFood85, dJune15]
  refine h.2.1.mpr ⟨by norm_num [catFood], ?_, ?_⟩ <;>
    rw [hm] <;> norm_num [catFood]

/-! ## C4: monthly trend -/

/-- The normalised (year, 0-based month) of the trend point at index `k`
(`k = 0` is the oldest of the six months, `k = 5` the current month). -/
def trendYM (now : DateTime) (k : Nat) : Int × Int :=
  normalizeYM now.year (now.month + k - 5)

/-- Midnight of the first day of a calendar month. -/
def calMonthStart (ym : Int × Int) : DateTime := ⟨ym.1, ym.2, 1, 0⟩

/-- Midnight of the last day of a calendar month (the value of
`new Date(y, m + 1, 0)`). -/
def calMonthEndMidnight (ym : Int × Int) : DateTime :=
  ⟨ym.1, ym.2, daysInMonth ym.1 ym.2, 0⟩

theorem normalizeYM_snd_nonneg (y m : Int) : 0 ≤ (normalizeYM y m).2 := by
  simp only [normalizeYM]
  omega

theorem normalizeYM_snd_lt (y m : Int) : (normalizeYM y m).2 < 12 := by
  simp only [normalizeYM]
  omega

theorem normalizeYM_id (y m : Int) (h0 : 0 ≤ m) (h12 : m < 12) :
    normalizeYM y m = (y, m) := by
  simp only [normalizeYM, Prod.mk.injEq]
  constructor <;> omega

theorem jsDate_day1 (y m : Int) :
    jsDate y m 1 = ⟨(normalizeYM y m).1, (normalizeYM y m).2, 1, 0⟩ := by
  simp [jsDate]

theorem jsDate_day0 (y m : Int) (h0 : 0 ≤ m) (h12 : m < 12) :
    jsDate y (m + 1) 0 = ⟨y, m, daysInMonth y m, 0⟩ := by
  rcases lt_or_eq_of_le (by omega : m ≤ 11) with hlt | heq
  · have hn : normalizeYM y (m + 1) = (y, m + 1) :=
      normalizeYM_id y (m + 1) (by omega) (by omega)
    have hne : m + 1 ≠ 0 := by omega
    simp [jsDate, hn, hne]
  · subst heq
    have hn : normalizeYM y 12 = (y + 1, 0) := by
      simp only [normalizeYM, Prod.mk.injEq]
      constructor <;> omega
    simp [jsDate, hn]

/-- The trend point for index `k` in closed form: the calendar month is
`trendYM now k`, and the sums range over the transactions whose date lies
between midnight of the month's first day and midnight of its *last day*
(`calMonthEndMidnight`) — not the full last day. -/
theorem trendPoint_closed (txs : List Transaction) (now : DateTime) (k : Nat) :
    trendPoint txs now (5 - (k : Int)) =
      { month := monthShortName (trendYM now k).2
        income := sumAmounts ((txs.filter (inWindow (calMonthStart (trendYM now k))
          (calMonthEndMidnight (trendYM now k)))).filter
          (fun t => decide (t.type = TxType.income)))
        expenses := sumAmounts ((txs.filter (inWindow (calMonthStart (trendYM now k))
          (calMonthEndMidnight (trendYM now k)))).filter
          (fun t => decide (t.type = TxType.expense))) } := by
  have h0 : 0 ≤ (trendYM now k).2 :=
    normalizeYM_snd_nonneg now.year (now.month + k - 5)
  have h12 : (trendYM now k).2 < 12 :=
    normalizeYM_snd_lt now.year (now.month + k - 5)
  have hdate : jsDate now.year (now.month - (5 - (k : Int))) 1
      = ⟨(trendYM now k).1, (trendYM now k).2, 1, 0⟩ := by
    rw [show now.month - (5 - (k : Int)) = now.month + k - 5 from by ring,
        jsDate_day1]
    rfl
  have hstart : jsDate (trendYM now k).1 (trendYM now k).2 1
      = ⟨(trendYM now k).1, (trendYM now k).2, 1, 0⟩ := by
    rw [jsDate_day1, normalizeYM_id _ _ h0 h12]
  have hend : jsDate (trendYM now k).1 ((trendYM now k).2 + 1) 0
      = ⟨(trendYM now k).1, (trendYM now k).2,
         daysInMonth (trendYM now k).1 (trendYM now k).2, 0⟩ :=
    jsDate_day0 _ _ h0 h12
  simp only [trendPoint, hdate, hstart, hend, calMonthStart,
    calMonthEndMidnight]

/-- C4 (amended): the monthly trend always has exactly 6 points, point `k`
(oldest first) being the calendar month `k - 5` months after the current one
(JS-normalised); each point's income / expense sums are taken over the full
period-selector-unfiltered history restricted to dates in
`[month start, midnight of the last day]` — so a transaction on the last
calendar day of a month with a nonzero time of day is *excluded* — and a
month with no transactions in that window yields zero sums.  (The original
claim, which says each month's sums cover all transactions whose date lies
within the calendar month, is refuted by
`monthlyTrend_last_day_counterexample`.) -/
theorem monthlyTrend_six_calendar_months (txs : List Transaction)
    (now : DateTime) :
    (monthlyTrend txs now).length = 6 ∧
    (∀ k, k < 6 →
      (monthlyTrend txs now)[k]? = some
        { month := monthShortName (trendYM now k).2
          income := sumAmounts ((txs.filter (inWindow (calMonthStart (trendYM now k))
            (calMonthEndMidnight (trendYM now k)))).filter
            (fun t => decide (t.type = TxType.income)))
          expenses := sumAmounts ((txs.filter (inWindow (calMonthStart (trendYM now k))
            (calMonthEndMidnight (trendYM now k)))).filter
            (fun t => decide (t.type = TxType.expense))) }) ∧
    (∀ k, k < 6 →
      (∀ t ∈ txs, inWindow (calMonthStart (trendYM now k))
          (calMonthEndMidnight (trendYM now k)) t = false) →
      (monthlyTrend txs now)[k]? = some
        ⟨monthShortName (trendYM now k).2, 0, 0⟩) := by
  have hpoint : ∀ k, k < 6 →
      (monthlyTrend txs now)[k]? = some
        { month := monthShortName (trendYM now k).2
          income := sumAmounts ((txs.filter (inWindow (calMonthStart (trendYM now k))
            (calMonthEndMidnight (trendYM now k)))).filter
            (fun t => decide (t.type = TxType.income)))
          expenses := sumAmounts ((txs.filter (inWindow (calMonthStart (trendYM now k))
            (calMonthEndMidnight (trendYM now k)))).filter
            (fun t => decide (t.type = TxType.expense))) } := by
    intro k hk
    rw [monthlyTrend, List.getElem?_map, List.getElem?_range hk,
        Option.map_some', trendPoint_closed]
  refine ⟨by simp [monthlyTrend], hpoint, ?_⟩
  intro k hk hnone
  rw [hpoint k hk]
  have hfilter : txs.filter (inWindow (calMonthStart (trendYM now k))
      (calMonthEndMidnight (trendYM now k))) = [] :=
    List.filter_eq_nil_iff.mpr (fun t ht => by simp [hnone t ht])
  simp [hfilter, sumAmounts]

/-- Witness for C4 (amended): one June-15 income of 1000 with "now" June 15
2025 gives six points whose current-month point is ("Jun", 1000, 0). -/
theorem monthlyTrend_six_calendar_months_witness :
    (monthlyTrend [txA] dJune15).length = 6 ∧
    (monthlyTrend [txA] dJune15)[5]? = some ⟨"Jun", 1000, 0⟩ := by
  have h := monthlyTrend_six_calendar_months [txA] dJune15
  refine ⟨h.1, ?_⟩
  rw [h.2.1 5 (by norm_num)]
  norm_num [trendYM, normalizeYM, monthShortName, calMonthStart,
    calMonthEndMidnight, inWindow, dle, sumAmounts, dJune15, txA,
    daysInMonth, isLeap]
  rfl

/-- A transaction dated one millisecond after midnight on June 30 2025 —
the last calendar day of the current month. -/
def txLastDay : Transaction :=
  ⟨"L1", .income, 5, "Salary", "", "", [], ⟨2025, 5, 30, 1⟩, [], dJune15,
   dJune15⟩

/-- Counterexample to C4 as stated: `txLastDay` falls inside the current
calendar month (June 2025, whose last day is the 30th), yet every point of
the monthly trend — including the current month's — has a zero income sum,
because the month window ends at *midnight* of the last day
(`new Date(y, m + 1, 0)`), excluding the rest of that day. -/
theorem monthlyTrend_last_day_counterexample :
    txLastDay.date.year = 2025 ∧ txLastDay.date.month = 5 ∧
    txLastDay.date.day = 30 ∧ daysInMonth 2025 5 = 30 ∧
    dJune15.year = 2025 ∧ dJune15.month = 5 ∧
    txLastDay.type = TxType.income ∧ txLastDay.amount = 5 ∧ (5 : ℚ) ≠ 0 ∧
    (monthlyTrend [txLastDay] dJune15).map (fun p => p.income)
      = [0, 0, 0, 0, 0, 0] := by
  refine ⟨rfl, rfl, rfl, by norm_num [daysInMonth, isLeap], rfl, rfl, rfl,
    rfl, by norm_num, ?_⟩
  rfl

/-! ## C5: category breakdown -/

/-- Sum of the amounts of the transactions of `l` whose category string is
`c`. -/
def catSum (l : List Transaction) (c : String) : ℚ :=
  sumAmounts (l.filter (fun t => decide (t.category = c)))

/-- The keys (category names) of a group list. -/
def groupKeys (g : List (String × ℚ)) : List String := g.map (fun p => p.1)

/-- Total of the summed amounts of a group list. -/
def valueSum (g : List (String × ℚ)) : ℚ := (g.map (fun p => p.2)).sum

/-- The summed amount held by a group list for key `c` (0 when absent). -/
def assocSum (g : List (String × ℚ)) (c : String) : ℚ :=
  ((g.filter (fun p => decide (p.1 = c))).map (fun p => p.2)).sum

theorem sumAmounts_cons (t : Transaction) (l : List Transaction) :
    sumAmounts (t :: l) = t.amount + sumAmounts l := by
  simp [sumAmounts_eq_sum_map]

theorem catSum_cons (t : Transaction) (l : List Transaction) (c : String) :
    catSum (t :: l) c
      = (if t.category = c then t.amount else 0) + catSum l c := by
  by_cases h : t.category = c <;>
    simp [catSum, List.filter_cons, h, sumAmounts_cons]

theorem valueSum_cons (k : String) (v : ℚ) (rest : List (String × ℚ)) :
    valueSum ((k, v) :: rest) = v + valueSum rest := by
  simp [valueSum]

theorem assocSum_cons (k : String) (v : ℚ) (rest : List (String × ℚ))
    (c : String) :
    assocSum ((k, v) :: rest) c
      = (if k = c then v else 0) + assocSum rest c := by
  by_cases h : k = c <;> simp [assocSum, List.filter_cons, h]

theorem valueSum_addToGroups (g : List (String × ℚ)) (n : String) (a : ℚ) :
    valueSum (addToGroups g n a) = valueSum g + a := by
  induction g with
  | nil => simp [addToGroups, valueSum]
  | cons p rest ih =>
      obtain ⟨k, v⟩ := p
      by_cases h : k = n
      · simp [addToGroups, h, valueSum_cons]
        ring
      · simp [addToGroups, h, valueSum_cons, ih]
        ring

theorem assocSum_addToGroups (g : List (String × ℚ)) (n : String) (a : ℚ)
    (c : String) :
    assocSum (addToGroups g n a) c
      = assocSum g c + (if n = c then a else 0) := by
  induction g with
  | nil =>
      by_cases h : n = c <;> simp [addToGroups, assocSum, h]
  | cons p rest ih =>
      obtain ⟨k, v⟩ := p
      by_cases hk : k = n
      · subst hk
        by_cases hc : k = c <;>
          simp [addToGroups, assocSum_cons, hc, add_right_comm]
      · simp only [addToGroups, if_neg hk, assocSum_cons, ih]
        ring

theorem mem_groupKeys_addToGroups (g : List (String × ℚ)) (n x : String)
    (a : ℚ) :
    x ∈ groupKeys (addToGroups g n a) ↔ x ∈ groupKeys g ∨ x = n := by
  induction g with
  | nil => simp [addToGroups, groupKeys]
  | cons p rest ih =>
      obtain ⟨k, v⟩ := p
      by_cases hk : k = n
      · subst hk
        have hred : addToGroups ((k, v) :: rest) k a = (k, v + a) :: rest := by
          simp [addToGroups]
        rw [hred]
        simp only [groupKeys, List.map_cons, List.mem_cons]
        tauto
      · simp only [addToGroups, if_neg hk, groupKeys, List.map_cons,
          List.mem_cons] at ih ⊢
        rw [ih]
        tauto

theorem nodup_groupKeys_addToGroups (g : List (String × ℚ)) (n : String)
    (a : ℚ) (h : (groupKeys g).Nodup) :
    (groupKeys (addToGroups g n a)).Nodup := by
  induction g with
  | nil => simp [addToGroups, groupKeys]
  | cons p rest ih =>
      obtain ⟨k, v⟩ := p
      simp only [groupKeys, List.map_cons, List.nodup_cons] at h
      by_cases hk : k = n
      · subst hk
        simpa [addToGroups, groupKeys, List.nodup_cons] using h
      · have ih' := ih h.2
        simp only [addToGroups, if_neg hk, groupKeys, List.map_cons,
          List.nodup_cons]
        refine ⟨?_, ih'⟩
        intro hmem
        rcases (mem_groupKeys_addToGroups rest n k a).mp hmem with hx | hx
        · exact h.1 hx
        · exact hk hx

theorem valueSum_foldl (l : List Transaction) (g : List (String × ℚ)) :
    valueSum (l.foldl (fun acc t => addToGroups acc t.category t.amount) g)
      = valueSum g + sumAmounts l := by
  induction l generalizing g with
  | nil => simp [sumAmounts]
  | cons t rest ih =>
      simp only [List.foldl_cons, ih, valueSum_addToGroups, sumAmounts_cons]
      ring

theorem assocSum_foldl (l : List Transaction) (g : List (String × ℚ))
    (c : String) :
    assocSum (l.foldl (fun acc t => addToGroups acc t.category t.amount) g) c
      = assocSum g c + catSum l c := by
  induction l generalizing g with
  | nil => simp [catSum, sumAmounts]
  | cons t rest ih =>
      simp only [List.foldl_cons, ih, assocSum_addToGroups, catSum_cons]
      ring

theorem nodup_groupKeys_foldl (l : List Transaction) (g : List (String × ℚ))
    (h : (groupKeys g).Nodup) :
    (groupKeys (l.foldl (fun acc t => addToGroups acc t.category t.amount) g)).Nodup := by
  induction l generalizing g with
  | nil => exact h
  | cons t rest ih =>
      exact ih _ (nodup_groupKeys_addToGroups g t.category t.amount h)

theorem mem_groupKeys_foldl (l : List Transaction) (g : List (String × ℚ))
    (x : String) :
    x ∈ groupKeys (l.foldl (fun acc t => addToGroups acc t.category t.amount) g)
      ↔ x ∈ groupKeys g ∨ x ∈ l.map (fun t => t.category) := by
  induction l generalizing g with
  | nil => simp
  | cons t rest ih =>
      simp only [List.foldl_cons, List.map_cons, List.mem_cons]
      rw [ih, mem_groupKeys_addToGroups]
      tauto

theorem assocSum_eq_zero_of_not_mem (g : List (String × ℚ)) (c : String)
    (h : c ∉ groupKeys g) : assocSum g c = 0 := by
  induction g with
  | nil => rfl
  | cons p rest ih =>
      obtain ⟨k, v⟩ := p
      simp only [groupKeys, List.map_cons, List.mem_cons] at h
      push_neg at h
      rw [assocSum_cons, if_neg (fun hkc => h.1 hkc.symm),
          ih (by simpa [groupKeys] using h.2)]
      ring

theorem assocSum_eq_of_mem (g : List (String × ℚ)) (c : String) (a : ℚ)
    (hnd : (groupKeys g).Nodup) (hmem : (c, a) ∈ g) : assocSum g c = a := by
  induction g with
  | nil => cases hmem
  | cons p rest ih =>
      obtain ⟨k, v⟩ := p
      simp only [groupKeys, List.map_cons, List.nodup_cons] at hnd
      rcases List.mem_cons.mp hmem with heq | hrest
      · cases heq
        rw [assocSum_cons, if_pos rfl,
            assocSum_eq_zero_of_not_mem rest c (by simpa [groupKeys] using hnd.1)]
        ring
      · have hkc : ¬ k = c := by
          intro hkc
          subst hkc
          exact hnd.1 (by
            simpa [groupKeys] using List.mem_map_of_mem (fun p => p.1) hrest)
        rw [assocSum_cons, if_neg hkc, ih hnd.2 hrest]
        ring

theorem insertByAmount_perm (x : CategoryData) (l : List CategoryData) :
    (insertByAmount x l).Perm (x :: l) := by
  induction l with
  | nil => exact List.Perm.refl _
  | cons y ys ih =>
      rw [insertByAmount]
      split_ifs with h
      · exact List.Perm.refl _
      · exact (ih.cons y).trans (List.Perm.swap x y ys)

theorem sortByAmountDesc_perm (l : List CategoryData) :
    (sortByAmountDesc l).Perm l := by
  induction l with
  | nil => exact List.Perm.refl _
  | cons x xs ih =>
      exact (insertByAmount_perm x (sortByAmountDesc xs)).trans (ih.cons x)

theorem sorted_insertByAmount (x : CategoryData) (l : List CategoryData)
    (h : l.Pairwise (fun a b => b.amount ≤ a.amount)) :
    (insertByAmount x l).Pairwise (fun a b => b.amount ≤ a.amount) := by
  induction l with
  | nil => simp [insertByAmount]
  | cons y ys ih =>
      rw [insertByAmount]
      split_ifs with hxy
      · refine List.Pairwise.cons ?_ h
        intro z hz
        rcases List.mem_cons.mp hz with rfl | hz'
        · exact hxy
        · exact le_trans (List.rel_of_pairwise_cons h hz') hxy
      · refine List.Pairwise.cons ?_ (ih (List.Pairwise.of_cons h))
        intro z hz
        rcases List.mem_cons.mp
            ((insertByAmount_perm x ys).mem_iff.mp hz) with rfl | hzy
        · exact le_of_lt (not_le.mp hxy)
        · exact List.rel_of_pairwise_cons h hzy

theorem sorted_sortByAmountDesc (l : List CategoryData) :
    (sortByAmountDesc l).Pairwise (fun a b => b.amount ≤ a.amount) := by
  induction l with
  | nil => exact List.Pairwise.nil
  | cons x xs ih => exact sorted_insertByAmount x (sortByAmountDesc xs) ih

/-- C5 (amended): the category breakdown groups the expense transactions
inside the period window by category string — each group's amount is the sum
of the window's expense transactions with that category, and the group keys
are exactly the categories occurring there; the group amounts sum to the
period expense total; each percentage is `amount / total × 100` when the
total is positive and `0` otherwise (never a division by zero); each group
carries the color of the first category whose name equals the group key
*when that color is non-empty*, and the fallback color `#666` when no
category matches or the matched category's color is the empty string (JS
`||` also falls back on the empty string — this is where the original claim
fails, see `categoryBreakdown_color_counterexample`); the groups are sorted
by summed amount descending. -/
theorem categoryBreakdown_spec (txs : List Transaction)
    (cats : List Category) (startDate now : DateTime) :
    ((categoryBreakdown txs cats startDate now).map (fun e => e.amount)).sum
      = periodExpenseTotal txs startDate now ∧
    (∀ e ∈ categoryBreakdown txs cats startDate now,
      e.percentage = if 0 < periodExpenseTotal txs startDate now
        then e.amount / periodExpenseTotal txs startDate now * 100 else 0) ∧
    (∀ e ∈ categoryBreakdown txs cats startDate now,
      e.amount = catSum (periodExpenses txs startDate now) e.name) ∧
    (∀ e ∈ categoryBreakdown txs cats startDate now,
      e.name ∈ (periodExpenses txs startDate now).map (fun t => t.category)) ∧
    (∀ c ∈ (periodExpenses txs startDate now).map (fun t => t.category),
      ∃ e ∈ categoryBreakdown txs cats startDate now, e.name = c) ∧
    (∀ e ∈ categoryBreakdown txs cats startDate now,
      ∀ cat, cats.find? (fun c => decide (c.name = e.name)) = some cat →
        cat.color ≠ "" → e.color = cat.color) ∧
    (∀ e ∈ categoryBreakdown txs cats startDate now,
      ∀ cat, cats.find? (fun c => decide (c.name = e.name)) = some cat →
        cat.color = "" → e.color = "#666") ∧
    (∀ e ∈ categoryBreakdown txs cats startDate now,
      cats.find? (fun c => decide (c.name = e.name)) = none →
        e.color = "#666") ∧
    (categoryBreakdown txs cats startDate now).Pairwise
      (fun a b => b.amount ≤ a.amount) := by
  have hperm : (categoryBreakdown txs cats startDate now).Perm
      ((expenseGroups txs startDate now).map (fun p =>
        (⟨p.1, p.2, colorFor cats p.1,
          if 0 < periodExpenseTotal txs startDate now
          then p.2 / periodExpenseTotal txs startDate now * 100
          else 0⟩ : CategoryData))) :=
    sortByAmountDesc_perm _
  have hnodup : (groupKeys (expenseGroups txs startDate now)).Nodup :=
    nodup_groupKeys_foldl (periodExpenses txs startDate now) []
      List.Pairwise.nil
  refine ⟨?_, ?_, ?_, ?_, ?_, ?_, ?_, ?_, ?_⟩
  · rw [(hperm.map (fun e => e.amount)).sum_eq, List.map_map]
    calc ((expenseGroups txs startDate now).map (fun p => p.2)).sum
        = valueSum (expenseGroups txs startDate now) := rfl
      _ = valueSum [] + sumAmounts (periodExpenses txs startDate now) :=
          valueSum_foldl (periodExpenses txs startDate now) []
      _ = periodExpenseTotal txs startDate now := by
          simp [valueSum, periodExpenseTotal]
  · intro e he
    rcases List.mem_map.mp (hperm.mem_iff.mp he) with ⟨p, hp, rfl⟩
    rfl
  · intro e he
    rcases List.mem_map.mp (hperm.mem_iff.mp he) with ⟨p, hp, rfl⟩
    show p.2 = catSum (periodExpenses txs startDate now) p.1
    have h1 : assocSum (expenseGroups txs startDate now) p.1 = p.2 :=
      assocSum_eq_of_mem _ _ _ hnodup (by simpa using hp)
    have h2 := assocSum_foldl (periodExpenses txs startDate now) [] p.1
    have h0 : assocSum [] p.1 = 0 := rfl
    rw [← h1]
    exact h2.trans (by rw [h0]; ring)
  · intro e he
    rcases List.mem_map.mp (hperm.mem_iff.mp he) with ⟨p, hp, rfl⟩
    show p.1 ∈ (periodExpenses txs startDate now).map (fun t => t.category)
    have hk : p.1 ∈ groupKeys (expenseGroups txs startDate now) :=
      List.mem_map_of_mem (fun q => q.1) hp
    rcases (mem_groupKeys_foldl (periodExpenses txs startDate now) []
        p.1).mp hk with h | h
    · cases h
    · exact h
  · intro c hc
    have hk : c ∈ groupKeys (expenseGroups txs startDate now) :=
      (mem_groupKeys_foldl (periodExpenses txs startDate now) [] c).mpr
        (Or.inr hc)
    rcases List.mem_map.mp hk with ⟨p, hp, hpc⟩
    exact ⟨_, hperm.mem_iff.mpr (List.mem_map_of_mem _ hp), hpc⟩
  · intro e he cat hfind hne
    rcases List.mem_map.mp (hperm.mem_iff.mp he) with ⟨p, hp, rfl⟩
    show colorFor cats p.1 = cat.color
    simp only [colorFor] at hfind ⊢
    rw [hfind]
    simp [hne]
  · intro e he cat hfind hcol
    rcases List.mem_map.mp (hperm.mem_iff.mp he) with ⟨p, hp, rfl⟩
    show colorFor cats p.1 = "#666"
    simp only [colorFor] at hfind ⊢
    rw [hfind]
    simp [hcol]
  · intro e he hfind
    rcases List.mem_map.mp (hperm.mem_iff.mp he) with ⟨p, hp, rfl⟩
    show colorFor cats p.1 = "#666"
    simp only [colorFor] at hfind ⊢
    rw [hfind]
  · exact sorted_sortByAmountDesc _

def dJan1 : DateTime := ⟨2025, 0, 1, 0⟩

def dDec31 : DateTime := ⟨2025, 11, 31, 0⟩

def txE1 : Transaction :=
  ⟨"e1", .expense, 30, "Food", "", "", [], dJune15, [], dJune15, dJune15⟩

def txE2 : Transaction :=
  ⟨"e2", .expense, 10, "Rent", "", "", [], dJune15, [], dJune15, dJune15⟩

def catColored : Category := ⟨"c9", "Food", .expense, "#f00", "utensils", 0⟩

/-- Witness for C5 (amended): with two in-window expenses, the breakdown has
a group for "Food" and is sorted by amount descending. -/
theorem categoryBreakdown_spec_witness :
    (∃ e ∈ categoryBreakdown [txE1, txE2] [catColored] dJan1 dDec31,
      e.name = "Food") ∧
    (categoryBreakdown [txE1, txE2] [catColored] dJan1 dDec31).Pairwise
      (fun a b => b.amount ≤ a.amount) := by
  have h := categoryBreakdown_spec [txE1, txE2] [catColored] dJan1 dDec31
  exact ⟨h.2.2.2.2.1 "Food" (by decide), h.2.2.2.2.2.2.2.2⟩

def catEmptyColor : Category := ⟨"c0", "Food", .expense, "", "utensils", 0⟩

/-- Counterexample to C5 as stated: a category named "Food" with the empty
string as its color matches the group key, yet the group carries the
fallback color `#666` rather than the category's color, because the JS
`category?.color || '#666'` also falls back on a falsy (empty) color. -/
theorem categoryBreakdown_color_counterexample :
    List.find? (fun c => decide (c.name = "Food")) [catEmptyColor]
      = some catEmptyColor ∧
    catEmptyColor.color = "" ∧
    (categoryBreakdown [txE1] [catEmptyColor] dJan1 dDec31).map
      (fun e => (e.name, e.color)) = [("Food", "#666")] ∧
    "#666" ≠ "" := by
  refine ⟨rfl, rfl, rfl, by decide⟩
